import Mathlib

/-!
Verification of the `cpljson` CLI (src/src/codeplane/bin/cpljson.c) against its
natural-language specification.  The C program is shallowly embedded: C strings
and byte buffers become `List Nat` (one `Nat` per byte, values below 256), file
contents become `Option (List Nat)` (`none` when `fopen` fails), and the
filesystem walk is parameterised by predicates saying which probes succeed.
All definitions are executable so that concrete runs can be settled by `decide`.
-/

namespace Cpljson

/-- Bytes of an ASCII string literal, one `Nat` per character. -/
def strBytes (s : String) : List Nat := s.data.map Char.toNat

/-- C-string view of a buffer: the bytes before the first NUL.  Models how
`strstr`, `strchr`, `strncmp`, `printf %s` and friends see a `char *`. -/
def cstr (bs : List Nat) : List Nat := bs.takeWhile (fun c => c ≠ 0)

/-! ### url_encode (cpljson.c lines 223-236) -/

/-- Unreserved-set test from `url_encode`:
`(c >= 'A' && c <= 'Z') || (c >= 'a' && c <= 'z') || (c >= '0' && c <= '9')
 || c == '-' || c == '_' || c == '.' || c == '~'`. -/
def isUnreservedByte (c : Nat) : Bool :=
  (65 ≤ c && c ≤ 90) || (97 ≤ c && c ≤ 122) || (48 ≤ c && c ≤ 57) ||
  c == 45 || c == 95 || c == 46 || c == 126

/-- Uppercase hexadecimal digit, as produced by `snprintf("%02X")` for one nibble. -/
def hexDigit (n : Nat) : Nat := if n < 10 then 48 + n else 55 + n

/-- Loop body of `url_encode`: `i` is the write cursor into the destination of
capacity `dst_sz`; the loop runs `while (*src && i + 4 < dst_sz)`, emitting the
byte itself when unreserved and `%XX` (3 bytes) otherwise.  The returned list
is the sequence of content bytes written (the function then stores a NUL at
position `i`). -/
def url_encode_go (dst_sz : Nat) : List Nat → Nat → List Nat
  | [], _ => []
  | c :: rest, i =>
    if c = 0 then []
    else if i + 4 < dst_sz then
      if isUnreservedByte c then c :: url_encode_go dst_sz rest (i + 1)
      else 37 :: hexDigit (c / 16) :: hexDigit (c % 16) :: url_encode_go dst_sz rest (i + 3)
    else []

/-- Content bytes produced by `url_encode(src, dst, dst_sz)` (the bytes stored
before the terminating NUL). -/
def url_encode (src : List Nat) (dst_sz : Nat) : List Nat :=
  url_encode_go dst_sz src 0

/-- Every byte `url_encode` stores into the destination, including the final
NUL terminator written by `dst[i] = 0`. -/
def url_encode_written (src : List Nat) (dst_sz : Nat) : List Nat :=
  url_encode src dst_sz ++ [0]

/-! ### Standard percent-decoding (specification-side, for the round-trip law) -/

/-- Value of a hexadecimal digit byte, accepting `0-9`, `A-F` and `a-f`. -/
def hexVal (c : Nat) : Option Nat :=
  if 48 ≤ c ∧ c ≤ 57 then some (c - 48)
  else if 65 ≤ c ∧ c ≤ 70 then some (c - 55)
  else if 97 ≤ c ∧ c ≤ 102 then some (c - 87)
  else none

/-- Standard percent-decoding: `%XY` becomes the byte `16*X + Y`, any other
byte passes through; a malformed escape fails. -/
def percent_decode : List Nat → Option (List Nat)
  | [] => some []
  | c :: rest =>
    if c = 37 then
      match rest with
      | h :: l :: rest2 =>
        match hexVal h, hexVal l with
        | some hi, some lo => (percent_decode rest2).map (fun d => (16 * hi + lo) :: d)
        | _, _ => none
      | _ => none
    else (percent_decode rest).map (fun d => c :: d)

/-! ### Helper lemmas about the encoder -/

theorem hexVal_hexDigit {x : Nat} (hx : x < 16) : hexVal (hexDigit x) = some x := by
  interval_cases x <;> decide

theorem isUnreservedByte_hexDigit {x : Nat} (hx : x < 16) :
    isUnreservedByte (hexDigit x) = true := by
  interval_cases x <;> decide

theorem hexDigit_ne_percent {x : Nat} (hx : x < 16) : hexDigit x ≠ 37 := by
  interval_cases x <;> decide

theorem unreserved_ne_percent {c : Nat} (h : isUnreservedByte c = true) : c ≠ 37 := by
  intro hc; subst hc; simp [isUnreservedByte] at h

theorem unreserved_ne_zero {c : Nat} (h : isUnreservedByte c = true) : c ≠ 0 := by
  intro hc; subst hc; simp [isUnreservedByte] at h

/-- Bytes the encoder may emit: the unreserved set plus the percent sign. -/
def encAlphabet (b : Nat) : Bool := isUnreservedByte b || b == 37

theorem percent_decode_cons_ne {c : Nat} (hc : c ≠ 37) (rest : List Nat) :
    percent_decode (c :: rest) = (percent_decode rest).map (fun d => c :: d) := by
  rw [percent_decode.eq_def]
  simp [hc]

theorem percent_decode_escape {h l : Nat} {hi lo : Nat} (rest : List Nat)
    (hh : hexVal h = some hi) (hl : hexVal l = some lo) :
    percent_decode (37 :: h :: l :: rest) =
      (percent_decode rest).map (fun d => (16 * hi + lo) :: d) := by
  simp [percent_decode, hh, hl]

theorem url_encode_go_alphabet (dst_sz : Nat) :
    ∀ (src : List Nat) (i : Nat), (∀ b ∈ src, b < 256) →
      ∀ b ∈ url_encode_go dst_sz src i, encAlphabet b = true := by
  intro src
  induction src with
  | nil => intro i _ b hb; simp [url_encode_go] at hb
  | cons c rest ih =>
    intro i hsrc b hb
    have hc : c < 256 := hsrc c (by simp)
    have hrest : ∀ x ∈ rest, x < 256 := fun x hx => hsrc x (by simp [hx])
    by_cases hz : c = 0
    · simp [url_encode_go, hz] at hb
    · by_cases hcap : i + 4 < dst_sz
      · by_cases hu : isUnreservedByte c = true
        · simp only [url_encode_go, if_neg hz, if_pos hcap, if_pos hu, List.mem_cons] at hb
          rcases hb with rfl | hb
          · simp [encAlphabet, hu]
          · exact ih (i + 1) hrest b hb
        · simp only [url_encode_go, if_neg hz, if_pos hcap, if_neg hu, List.mem_cons] at hb
          have hhi : c / 16 < 16 := by omega
          have hlo : c % 16 < 16 := by omega
          rcases hb with rfl | rfl | rfl | hb
          · simp [encAlphabet]
          · simp [encAlphabet, isUnreservedByte_hexDigit hhi]
          · simp [encAlphabet, isUnreservedByte_hexDigit hlo]
          · exact ih (i + 3) hrest b hb
      · simp [url_encode_go, hz, hcap] at hb

/-- Without truncation (cursor budget `i + 3*|src| + 1 < dst_sz`), decoding the
encoder's output recovers the input. -/
theorem url_encode_go_roundtrip (dst_sz : Nat) :
    ∀ (src : List Nat) (i : Nat), (∀ b ∈ src, 0 < b ∧ b < 256) →
      i + 3 * src.length + 1 < dst_sz →
      percent_decode (url_encode_go dst_sz src i) = some src := by
  intro src
  induction src with
  | nil => intro i _ _; simp [url_encode_go, percent_decode]
  | cons c rest ih =>
    intro i hsrc hcap
    obtain ⟨hcpos, hclt⟩ := hsrc c (by simp)
    have hrest : ∀ x ∈ rest, 0 < x ∧ x < 256 := fun x hx => hsrc x (by simp [hx])
    have hz : c ≠ 0 := by omega
    have hlen : (c :: rest).length = rest.length + 1 := List.length_cons c rest
    have hi4 : i + 4 < dst_sz := by omega
    by_cases hu : isUnreservedByte c = true
    · have hnp : c ≠ 37 := unreserved_ne_percent hu
      have hrec : percent_decode (url_encode_go dst_sz rest (i + 1)) = some rest := by
        apply ih (i + 1) hrest; omega
      simp [url_encode_go, hz, hi4, hu, percent_decode_cons_ne hnp, hrec]
    · have hhi : c / 16 < 16 := by omega
      have hlo : c % 16 < 16 := by omega
      have hrec : percent_decode (url_encode_go dst_sz rest (i + 3)) = some rest := by
        apply ih (i + 3) hrest; omega
      have hrecon : 16 * (c / 16) + c % 16 = c := by omega
      rw [url_encode_go]
      simp only [if_neg hz, if_pos hi4, if_neg hu]
      rw [percent_decode_escape _ (hexVal_hexDigit hhi) (hexVal_hexDigit hlo), hrec]
      simp [hrecon]

/-- Write-cursor bound: starting at cursor `i` with at least one free byte, the
content written plus the final NUL never exceeds the capacity. -/
theorem url_encode_go_length (dst_sz : Nat) :
    ∀ (src : List Nat) (i : Nat), i + 1 ≤ dst_sz →
      i + (url_encode_go dst_sz src i).length + 1 ≤ dst_sz := by
  intro src
  induction src with
  | nil => intro i hi; simpa [url_encode_go] using hi
  | cons c rest ih =>
    intro i hi
    by_cases hz : c = 0
    · simpa [url_encode_go, hz] using hi
    · by_cases hcap : i + 4 < dst_sz
      · by_cases hu : isUnreservedByte c = true
        · have := ih (i + 1) (by omega)
          simp only [url_encode_go, if_neg hz, if_pos hcap, if_pos hu, List.length_cons]
          omega
        · have := ih (i + 3) (by omega)
          simp only [url_encode_go, if_neg hz, if_pos hcap, if_neg hu, List.length_cons]
          omega
      · simpa [url_encode_go, hz, hcap] using hi

/-! ### C-library string scanning helpers used by read_port / http_get -/

/-- Suffix of `s` starting at the first occurrence of `pat`, as `strstr`
returns a pointer into the haystack (`none` models a NULL result). -/
def strstrSuffix (pat : List Nat) : List Nat → Option (List Nat)
  | [] => if pat = [] then some [] else none
  | c :: rest =>
    if pat.isPrefixOf (c :: rest) then some (c :: rest) else strstrSuffix pat rest

/-- Suffix of `s` starting at the first occurrence of byte `ch`, as `strchr`
returns a pointer into the string. -/
def strchrSuffix (ch : Nat) : List Nat → Option (List Nat)
  | [] => none
  | c :: rest => if c = ch then some (c :: rest) else strchrSuffix ch rest

/-- C `isspace` on a byte: space or one of HT, LF, VT, FF, CR. -/
def isSpaceByte (c : Nat) : Bool := c == 32 || (9 ≤ c && c ≤ 13)

/-- ASCII decimal digit test. -/
def isDigitByte (c : Nat) : Bool := 48 ≤ c && c ≤ 57

/-- Value of the maximal run of leading decimal digits. -/
def leadingNat (s : List Nat) : Nat :=
  (s.takeWhile isDigitByte).foldl (fun a c => 10 * a + (c - 48)) 0

/-- Shared integer scan of `atoi` and `sscanf %d`: skip whitespace, accept an
optional sign, then require at least one digit (else `none`). -/
def parseIntToken (s : List Nat) : Option Int :=
  let t := s.dropWhile isSpaceByte
  match t with
  | 43 :: r => if r.head?.elim false isDigitByte then some (leadingNat r : Int) else none
  | 45 :: r => if r.head?.elim false isDigitByte then some (-(leadingNat r : Int)) else none
  | r => if r.head?.elim false isDigitByte then some (leadingNat r : Int) else none

/-- C `atoi`: like `parseIntToken` but yields 0 when no digits follow. -/
def atoi (s : List Nat) : Int := (parseIntToken s).getD 0

/-! ### read_port (cpljson.c lines 92-121) -/

/-- Contents of the two configuration files `read_port` may consult, relative
to the resolved `.codeplane` directory; `none` models a failed `fopen`. -/
structure ConfigFiles where
  serverJson : Option (List Nat)
  configYaml : Option (List Nat)

/-- Scan of the `server.json` buffer: find `"port"` (else `'port'`) with
`strstr`, then the next `:` with `strchr`, then `atoi` of what follows; if
either search fails the default 7777 is returned. -/
def scanJsonPort (buf : List Nat) : Int :=
  let pp :=
    match strstrSuffix (strBytes "\"port\"") buf with
    | some s => some s
    | none => strstrSuffix (strBytes "\x27port\x27") buf
  match pp with
  | none => 7777
  | some s =>
    match strchrSuffix 58 s with
    | none => 7777
    | some s2 => atoi (s2.drop 1)

/-- One `sscanf(line, "port: %d", &p)` attempt: the literal `port:` must match
at the start of the line; the blank and `%d` both skip whitespace; `%d` must
then convert at least one digit. -/
def sscanf_port (line : List Nat) : Option Int :=
  let l := cstr line
  if (strBytes "port:").isPrefixOf l then parseIntToken (l.drop 5) else none

/-- Lines of a file as delivered by repeated `fgets` (split at LF; the
255-byte `fgets` buffer cap is immaterial for the scanned `port:` lines and is
not modelled). -/
def splitLines (s : List Nat) : List (List Nat) := s.splitOn 10

/-- Port resolution of `read_port`: with `run/server.json` readable, scan its
first 511 bytes (the buffer is `char buf[512]`, NUL-terminated after `fread`);
only when that file cannot be opened is `config.yaml` scanned line by line
with `sscanf("port: %d")`; with neither file readable the result is 7777. -/
def read_port (fs : ConfigFiles) : Int :=
  match fs.serverJson with
  | some content => scanJsonPort (cstr (content.take 511))
  | none =>
    match fs.configYaml with
    | none => 7777
    | some content =>
      match (splitLines content).findSome? sscanf_port with
      | some p => p
      | none => 7777

/-! ### read_token (cpljson.c lines 124-136) -/

/-- Trailing bytes removed by `read_token`: LF, CR, space. -/
def isTrimByte (c : Nat) : Bool := c == 10 || c == 13 || c == 32

/-- Removal of all trailing bytes satisfying `isTrimByte`. -/
def rstrip (bs : List Nat) : List Nat := (bs.reverse.dropWhile isTrimByte).reverse

/-- Token resolution of `read_token`: an unreadable `run/token` yields the
empty token; otherwise at most 511 bytes are read (`fread(out, 1, out_sz - 1)`
with the caller's `char token[512]`) and trailing LF/CR/space bytes are
trimmed. -/
def read_token (file : Option (List Nat)) : List Nat :=
  match file with
  | none => []
  | some content => rstrip (content.take 511)

/-! ### find_codeplane_dir (cpljson.c lines 59-89)

The walk works on the `getcwd` string: probe `<cwd>/.codeplane` (an `fopen`
that succeeds for an existing marker), then `<cwd>/.codeplane/config.yaml`;
on failure locate the last `/` with `strrchr` and cut the string there, giving
the parent; when that `/` is absent or is the leading character (`sep == cwd`)
the function returns -1.  An absolute POSIX path is modelled as its list of
components (`[]` is the root `/`), so cutting at the last separator is
`dropLast`; the recursion below runs on the reversed component list, which
makes it structural and hence kernel-executable. -/

/-- Filesystem oracle for the walk: which directories have an openable
`<dir>/.codeplane`, and which have an openable `<dir>/.codeplane/config.yaml`.
Directories are absolute paths given as component lists. -/
structure MarkerFS where
  marker : List String → Bool
  markerCfg : List String → Bool

/-- Walk body on the reversed component list of the current directory. -/
def find_rev (fs : MarkerFS) : List String → Option (List String)
  | [] =>
    if fs.marker [] then some [".codeplane"]
    else if fs.markerCfg [] then some [".codeplane"]
    else none
  | c :: rest =>
    let cwd := (c :: rest).reverse
    if fs.marker cwd then some (cwd ++ [".codeplane"])
    else if fs.markerCfg cwd then some (cwd ++ [".codeplane"])
    else
      match rest with
      | [] => none
      | _ :: _ => find_rev fs rest

/-- Configuration-root discovery: the returned path is `<dir>/.codeplane` for
the first directory on the upward walk whose probe succeeds, `none` when the
walk gives up. -/
def find_codeplane_dir (fs : MarkerFS) (cwd : List String) : Option (List String) :=
  find_rev fs cwd.reverse

/-- Directories the walk actually probes, starting from the reversed component
list: the chain stops at depth 1 — the root `[]` is probed only when the walk
starts there. -/
def chain_rev : List String → List (List String)
  | [] => [[]]
  | c :: rest =>
    (c :: rest).reverse ::
      (match rest with
       | [] => []
       | _ :: _ => chain_rev rest)

/-- Directories probed when starting from `cwd` (given in forward order). -/
def probedDirs (cwd : List String) : List (List String) := chain_rev cwd.reverse

/-! ### http_get request formatting (cpljson.c lines 165-185) -/

/-- CR LF pair. -/
def crlf : List Nat := [13, 10]

/-- Guard `token[0]` deciding whether the Authorization header is emitted. -/
def tokenNonempty (token : List Nat) : Bool :=
  match token with
  | [] => false
  | c :: _ => c != 0

/-- Decimal rendering of an `int`, as `snprintf %d` produces. -/
def intBytes (n : Int) : List Nat := strBytes (toString n)

/-- Request bytes produced by the two `snprintf` format strings of `http_get`
(`%s` renders a buffer up to its first NUL, hence `cstr`); the `req` buffer
holds `MAX_URL_LEN + 512` bytes, ample for the URLs the program builds, so
`snprintf` truncation is not modelled. -/
def build_request (port : Int) (pathAndQuery token : List Nat) : List Nat :=
  if tokenNonempty token then
    strBytes "GET " ++ cstr pathAndQuery ++ strBytes " HTTP/1.0" ++ crlf
    ++ strBytes "Host: localhost:" ++ intBytes port ++ crlf
    ++ strBytes "Authorization: Bearer " ++ cstr token ++ crlf
    ++ strBytes "Accept: application/json" ++ crlf ++ crlf
  else
    strBytes "GET " ++ cstr pathAndQuery ++ strBytes " HTTP/1.0" ++ crlf
    ++ strBytes "Host: localhost:" ++ intBytes port ++ crlf
    ++ strBytes "Accept: application/json" ++ crlf ++ crlf

/-! ### http_get response handling (cpljson.c lines 187-219) -/

/-- Boundary bytes `\r\n\r\n`. -/
def crlfcrlf : List Nat := [13, 10, 13, 10]

/-- Body pointer computation: `strstr(buf, "\r\n\r\n")` runs on the
NUL-terminated buffer, the body starts 4 bytes past the match, and with no
match `body = buf`. -/
def extract_body (buf : List Nat) : List Nat :=
  let s := cstr buf
  match strstrSuffix crlfcrlf s with
  | some suf => suf.drop 4
  | none => s

/-- Bytes `printf("%s\n", body)` writes to standard output: the body up to its
first NUL, then one LF. -/
def printed_stdout (buf : List Nat) : List Nat := extract_body buf ++ [10]

/-- Status parse: when the buffer starts with `HTTP/` (per `strncmp`, on the
C-string view), `atoi` of what follows the first space found by `strchr`;
otherwise, or when no space exists, 0. -/
def parse_status (buf : List Nat) : Int :=
  let s := cstr buf
  if (strBytes "HTTP/").isPrefixOf s then
    match strchrSuffix 32 s with
    | some suf => atoi (suf.drop 1)
    | none => 0
  else 0

/-- Exit code of the response-classification line
`(http_status >= 200 && http_status < 300) ? 0 : 1`. -/
def http_exit (buf : List Nat) : Nat :=
  if 200 ≤ parse_status buf ∧ parse_status buf < 300 then 0 else 1

/-! ### Command routing (cpljson.c lines 240-324) -/

/-- Lines of the `usage()` text written to standard error. -/
def usageLines : List String :=
  ["Usage:",
   "  cpljson list  --session S --endpoint E",
   "  cpljson slice --cache C [--path P] [--max-bytes N] [--offset N]",
   "  cpljson meta  --cache C"]

/-- Argument lookup of `find_arg`: scan `argv[0] .. argv[argc-2]` for an exact
match of `name` and return the token after it; the first occurrence wins. -/
def find_arg : List String → String → Option String
  | a :: b :: rest, name => if a = name then some b else find_arg (b :: rest) name
  | _, _ => none

/-- URL built by the `list` branch; both values are encoded into the
1024-byte `enc1`/`enc2` buffers. -/
def list_url (session endpoint : List Nat) : List Nat :=
  strBytes "/sidecar/cache/list?session=" ++ url_encode session 1024
  ++ strBytes "&endpoint=" ++ url_encode endpoint 1024

/-- URL built by the `slice` branch: `--cache` and `--path` are encoded,
`--max-bytes` and `--offset` are appended verbatim (`%s` of the raw argument)
when present, in that order. -/
def slice_url (cache : List Nat) (path maxBytes offset : Option (List Nat)) : List Nat :=
  strBytes "/sidecar/cache/slice?cache=" ++ url_encode cache 1024
  ++ (match path with
      | some p => strBytes "&path=" ++ url_encode p 1024
      | none => [])
  ++ (match maxBytes with
      | some m => strBytes "&max_bytes=" ++ cstr m
      | none => [])
  ++ (match offset with
      | some o => strBytes "&offset=" ++ cstr o
      | none => [])

/-- URL built by the `meta` branch. -/
def meta_url (cache : List Nat) : List Nat :=
  strBytes "/sidecar/cache/meta?cache=" ++ url_encode cache 1024

/-- Inputs `main` reads from its environment: the marker probes and current
directory used by `find_codeplane_dir`, and the contents of the three files
under the resolved `.codeplane` directory (functions of that directory). -/
structure Env where
  marker : List String → Bool
  markerCfg : List String → Bool
  cwd : List String
  serverJson : List String → Option (List Nat)
  configYaml : List String → Option (List Nat)
  tokenFile : List String → Option (List Nat)

/-- Observable outcome of `main` up to the `http_get` call.  `err` covers
every early-return path: the listed diagnostics go to standard error, the exit
code is 1, nothing is written to standard output and no socket is opened
(every `return 1` before any `http_get` call in `main`).  `call` records that
`http_get(port, url, token)` is invoked, i.e. a socket is about to be
opened. -/
inductive MainOutcome where
  | err (stderrLines : List String)
  | call (port : Int) (pathAndQuery : List Nat) (token : List Nat)
deriving DecidableEq

/-- Truth of "no socket is opened" for an outcome. -/
def MainOutcome.socketOpened : MainOutcome → Bool
  | .err _ => false
  | .call .. => true

/-- Exit code of the early-error paths (`none` when `http_get` runs and the
exit code is decided by the response). -/
def MainOutcome.earlyExitCode : MainOutcome → Option Nat
  | .err _ => some 1
  | .call .. => none

/-- Diagnostics written to standard error before any network activity. -/
def MainOutcome.stderrLinesOf : MainOutcome → List String
  | .err ls => ls
  | .call .. => []

/-- Bytes written to standard output before any network activity: none on any
path (`main` prints to stdout only inside `http_get`). -/
def MainOutcome.earlyStdout : MainOutcome → List Nat
  | _ => []

/-- Embedding of `main` (cpljson.c lines 256-324) up to the `http_get` call:
usage check, configuration discovery, port and token resolution, then the
per-subcommand argument checks and URL construction. -/
def cmain (env : Env) (argv : List String) : MainOutcome :=
  match argv with
  | [] => .err usageLines
  | [_] => .err usageLines
  | _ :: cmd :: _ =>
    match find_codeplane_dir ⟨env.marker, env.markerCfg⟩ env.cwd with
    | none => .err ["cpljson: .codeplane/ not found (are you in a CodePlane repo?)"]
    | some cplDir =>
      let port := read_port ⟨env.serverJson cplDir, env.configYaml cplDir⟩
      let token := read_token (env.tokenFile cplDir)
      if cmd = "list" then
        match find_arg argv "--session", find_arg argv "--endpoint" with
        | some s, some e => .call port (list_url (strBytes s) (strBytes e)) token
        | _, _ => .err ["cpljson list: --session and --endpoint required"]
      else if cmd = "slice" then
        match find_arg argv "--cache" with
        | none => .err ["cpljson slice: --cache required"]
        | some c =>
          .call port
            (slice_url (strBytes c) ((find_arg argv "--path").map strBytes)
              ((find_arg argv "--max-bytes").map strBytes)
              ((find_arg argv "--offset").map strBytes))
            token
      else if cmd = "meta" then
        match find_arg argv "--cache" with
        | none => .err ["cpljson meta: --cache required"]
        | some c => .call port (meta_url (strBytes c)) token
      else .err (("cpljson: unknown command \x27" ++ cmd ++ "\x27") :: usageLines)

/-- Argument-validation failure test matching the early `err` branches of the
subcommand dispatch: missing subcommand, unknown subcommand, or a missing
required argument for the recognized one. -/
def requiredArgsMissing (argv : List String) : Bool :=
  match argv with
  | _ :: cmd :: _ =>
    if cmd = "list" then
      (find_arg argv "--session").isNone || (find_arg argv "--endpoint").isNone
    else if cmd = "slice" then (find_arg argv "--cache").isNone
    else if cmd = "meta" then (find_arg argv "--cache").isNone
    else true
  | _ => true

/-! ### Specification-side definitions used to compare against the claims -/

/-- Body extraction as claimed: the bytes after the first `\r\n\r\n` of the
received buffer, or the whole received buffer, with no sensitivity to NUL
bytes. -/
def claimed_body (buf : List Nat) : List Nat :=
  match strstrSuffix crlfcrlf buf with
  | some suf => suf.drop 4
  | none => buf

/-- Helper: the C-string view of a NUL-free buffer is the buffer itself. -/
theorem cstr_eq_self {bs : List Nat} (h : 0 ∉ bs) : cstr bs = bs := by
  induction bs with
  | nil => rfl
  | cons c rest ih =>
    have hc : c ≠ 0 := fun e => h (by simp [e])
    have hrest : (0 : Nat) ∉ rest := fun hm => h (by simp [hm])
    simp [cstr] at ih ⊢
    exact ⟨hc, ih hrest⟩

/-! ### Claim theorems -/

/-- C3 counterexample: the claim's round-trip condition "input shorter than
the destination capacity" is not sufficient.  Eight spaces are shorter than a
capacity of 10 bytes, yet the encoder truncates (each space expands to three
bytes) and decoding returns only two spaces. -/
theorem encode_roundtrip_capacity_cex :
    (List.replicate 8 32).length < 10 ∧
    percent_decode (url_encode (List.replicate 8 32) 10) ≠ some (List.replicate 8 32) := by
  decide

/-- C3 (amended): every byte of `url_encode` output lies in the set
`[A-Za-z0-9._~-]` plus `%`, and whenever the worst-case encoded length fits
the capacity (`3·|src| + 1 < dst_sz`, so no truncation occurs) standard
percent-decoding of the output reproduces the input exactly. -/
theorem url_encode_alphabet_roundtrip (src : List Nat) (dst_sz : Nat)
    (hb : ∀ b ∈ src, 0 < b ∧ b < 256) :
    (∀ b ∈ url_encode src dst_sz, encAlphabet b = true) ∧
    (3 * src.length + 1 < dst_sz →
      percent_decode (url_encode src dst_sz) = some src) := by
  refine ⟨url_encode_go_alphabet dst_sz src 0 (fun b h => (hb b h).2), fun hcap => ?_⟩
  exact url_encode_go_roundtrip dst_sz src 0 hb (by omega)

/-- Witness for `url_encode_alphabet_roundtrip` at the input `"a b"` with
capacity 16. -/
theorem url_encode_alphabet_roundtrip_witness :
    (url_encode (strBytes "a b") 16).all encAlphabet = true ∧
    percent_decode (url_encode (strBytes "a b") 16) = some (strBytes "a b") := by
  have h := url_encode_alphabet_roundtrip (strBytes "a b") 16 (by decide)
  exact ⟨List.all_eq_true.mpr h.1, h.2 (by decide)⟩

/-- C10: with a destination of at least one byte, `url_encode` writes at most
`dst_sz` bytes in total (content plus terminating NUL) and the last byte
written is always the NUL terminator. -/
theorem url_encode_bounded (src : List Nat) (dst_sz : Nat) (h : 1 ≤ dst_sz) :
    (url_encode_written src dst_sz).length ≤ dst_sz ∧
    (url_encode_written src dst_sz).getLast? = some 0 := by
  constructor
  · have hlen := url_encode_go_length dst_sz src 0 h
    simp only [url_encode_written, url_encode, List.length_append, List.length_cons,
      List.length_nil]
    omega
  · simp [url_encode_written]

/-- Witness for `url_encode_bounded` at a one-byte destination. -/
theorem url_encode_bounded_witness :
    (url_encode_written [97] 1).length ≤ 1 ∧
    (url_encode_written [97] 1).getLast? = some 0 :=
  url_encode_bounded [97] 1 (by decide)

/-- C5: the exit code of the response-classification step is 0 exactly when
the parsed status lies in `[200, 300)`, and an unknown status (0) maps to exit
code 1. -/
theorem http_exit_classification (buf : List Nat) :
    (http_exit buf = 0 ↔ (200 ≤ parse_status buf ∧ parse_status buf < 300)) ∧
    (parse_status buf = 0 → http_exit buf = 1) := by
  constructor
  · by_cases h : 200 ≤ parse_status buf ∧ parse_status buf < 300 <;>
      simp [http_exit, h]
  · intro h0
    simp [http_exit, h0]

/-- Witness for `http_exit_classification`: a non-HTTP buffer parses to the
unknown status 0 and exits 1; a 204 response exits 0. -/
theorem http_exit_classification_witness :
    http_exit (strBytes "junk") = 1 ∧
    http_exit (strBytes "HTTP/1.0 204 No Content\r\n\r\n") = 0 := by
  constructor
  · exact (http_exit_classification (strBytes "junk")).2 (by decide)
  · exact (http_exit_classification (strBytes "HTTP/1.0 204 No Content\r\n\r\n")).1.mpr
      (by decide)

/-- C6 counterexample: a received buffer containing a NUL byte is not printed
verbatim — `printf("%s")` stops at the NUL, so the buffer `A NUL B` prints as
`A` plus newline, not as the full buffer plus newline as claimed. -/
theorem printed_body_nul_cex :
    printed_stdout [65, 0, 66] = [65, 10] ∧
    printed_stdout [65, 0, 66] ≠ claimed_body [65, 0, 66] ++ [10] := by
  decide

/-- C6 (amended): for NUL-free received buffers the printed output is exactly
the bytes after the first `\r\n\r\n` (or the whole buffer when there is none)
followed by a single newline. -/
theorem printed_body_boundary (buf : List Nat) (h : (0 : Nat) ∉ buf) :
    printed_stdout buf = claimed_body buf ++ [10] := by
  have hc : cstr buf = buf := cstr_eq_self h
  simp only [printed_stdout, extract_body, claimed_body, hc]

/-- Witness for `printed_body_boundary` on a well-formed 200 response. -/
theorem printed_body_boundary_witness :
    printed_stdout (strBytes "HTTP/1.0 200 OK\r\n\r\nok") =
      claimed_body (strBytes "HTTP/1.0 200 OK\r\n\r\nok") ++ [10] :=
  printed_body_boundary (strBytes "HTTP/1.0 200 OK\r\n\r\nok") (by decide)

/-- C1 counterexample: a root whose `run/server.json` exists but contains no
port key does NOT fall back to the `config.yaml` line.  With server.json
present as `\x7b\x7d` and config.yaml containing `port: 4242`, the code
returns the default 7777, while the same config.yaml alone yields 4242. -/
theorem read_port_json_no_fallback_cex :
    read_port ⟨some (strBytes "\x7b\x7d"), some (strBytes "port: 4242\n")⟩ = 7777 ∧
    read_port ⟨none, some (strBytes "port: 4242\n")⟩ = 4242 := by
  decide

/-- C1 (amended): port resolution is layered, but the `config.yaml` fallback
is taken only when `run/server.json` cannot be opened — when the file exists
its scan alone decides the port (`config.yaml` is never consulted, first
conjunct), and a readable server.json without the key yields the default 7777
directly.  The remaining conjuncts are the specified examples: a port key in
server.json wins, a `port:` line in config.yaml is used when server.json is
absent, and with neither source the default is 7777. -/
theorem read_port_layered_resolution :
    (∀ content yaml, read_port ⟨some content, yaml⟩ = read_port ⟨some content, none⟩) ∧
    read_port ⟨some (strBytes "\x7b\"port\": 9999\x7d"), none⟩ = 9999 ∧
    (∀ yaml, read_port ⟨some (strBytes "\x7b\x7d"), yaml⟩ = 7777) ∧
    read_port ⟨none, some (strBytes "port: 4242\n")⟩ = 4242 ∧
    read_port ⟨none, none⟩ = 7777 :=
  ⟨fun _ _ => rfl, by decide, fun _ => rfl, by decide, by decide⟩

/-- Unfolding equation of `find_rev` at a path of two or more components. -/
theorem find_rev_cons2 (fs : MarkerFS) (c c2 : String) (rest2 : List String) :
    find_rev fs (c :: c2 :: rest2) =
      (if fs.marker ((c :: c2 :: rest2).reverse) then
        some ((c :: c2 :: rest2).reverse ++ [".codeplane"])
      else if fs.markerCfg ((c :: c2 :: rest2).reverse) then
        some ((c :: c2 :: rest2).reverse ++ [".codeplane"])
      else find_rev fs (c2 :: rest2)) := rfl

/-- Unfolding equation of `chain_rev` at a path of two or more components. -/
theorem chain_rev_cons2 (c c2 : String) (rest2 : List String) :
    chain_rev (c :: c2 :: rest2) = (c :: c2 :: rest2).reverse :: chain_rev (c2 :: rest2) := rfl

/-- Characterization of the upward walk: it returns `<dir>/.codeplane` for the
first directory in the probed chain whose marker probe succeeds. -/
theorem find_rev_chain (fs : MarkerFS) :
    ∀ r : List String,
      find_rev fs r =
        ((chain_rev r).find? (fun d => fs.marker d || fs.markerCfg d)).map
          (fun d => d ++ [".codeplane"]) := by
  intro r
  induction r with
  | nil =>
    by_cases h1 : fs.marker [] <;> by_cases h2 : fs.markerCfg [] <;>
      simp [find_rev, chain_rev, List.find?, h1, h2]
  | cons c rest ih =>
    cases rest with
    | nil =>
      by_cases h1 : fs.marker [c] <;> by_cases h2 : fs.markerCfg [c] <;>
        simp [find_rev, chain_rev, List.find?, h1, h2]
    | cons c2 rest2 =>
      rw [find_rev_cons2, chain_rev_cons2]
      set X := (c :: c2 :: rest2).reverse with hX
      by_cases h1 : fs.marker X
      · rw [if_pos h1, List.find?_cons_of_pos _ (by simp [h1])]
        simp
      · rw [if_neg h1]
        by_cases h2 : fs.markerCfg X
        · rw [if_pos h2, List.find?_cons_of_pos _ (by simp [h1, h2])]
          simp
        · rw [if_neg h2, List.find?_cons_of_neg _ (by simp [h1, h2])]
          exact ih

/-- C7 counterexample: the walk never probes the filesystem root unless it
starts there.  With the directory-form marker present only at the root and the
walk started one level below, the code returns NotFound even though the root
itself carries the marker — contradicting "returns NotFound only after ... any
ancestor, including the root itself" was checked. -/
theorem locate_root_unchecked_cex :
    find_codeplane_dir ⟨fun _ => false, fun d => d.isEmpty⟩ ["a"] = none ∧
    MarkerFS.markerCfg ⟨fun _ => false, fun d => d.isEmpty⟩ [] = true := by
  decide

/-- C7 (amended): `find_codeplane_dir` returns `<dir>/.codeplane` for the
first probed ancestor whose `.codeplane` marker (file probe or
`config.yaml` probe) exists, where the probed chain runs from the start
directory upward but stops at depth 1 — the filesystem root itself is probed
only when the walk starts there; NotFound is returned exactly when no probed
directory matches.  The conjuncts instantiate the specified examples: started
three directories below a root holding `.codeplane/config.yaml` the walk
returns that root, and started outside any marked hierarchy it returns
NotFound. -/
theorem locate_probed_chain :
    (∀ (fs : MarkerFS) (cwd : List String),
      find_codeplane_dir fs cwd =
        ((probedDirs cwd).find? (fun d => fs.marker d || fs.markerCfg d)).map
          (fun d => d ++ [".codeplane"])) ∧
    find_codeplane_dir ⟨fun _ => false, fun d => d == ["r"]⟩ ["r", "a", "b", "c"]
      = some ["r", ".codeplane"] ∧
    find_codeplane_dir ⟨fun _ => false, fun _ => false⟩ ["x", "y"] = none := by
  refine ⟨fun fs cwd => find_rev_chain fs cwd.reverse, by decide, by decide⟩

/-- Helper: any list splits into its right-trimmed core followed by the
trailing run of trim bytes. -/
theorem rstrip_decomp (l : List Nat) :
    l = rstrip l ++ (l.reverse.takeWhile isTrimByte).reverse := by
  have h := List.takeWhile_append_dropWhile isTrimByte l.reverse
  calc l = l.reverse.reverse := (List.reverse_reverse l).symm
    _ = (l.reverse.takeWhile isTrimByte ++ l.reverse.dropWhile isTrimByte).reverse := by
        rw [h]
    _ = (l.reverse.dropWhile isTrimByte).reverse ++ (l.reverse.takeWhile isTrimByte).reverse := by
        rw [List.reverse_append]
    _ = rstrip l ++ (l.reverse.takeWhile isTrimByte).reverse := rfl

/-- Helper: the head of a `dropWhile` residue never satisfies the predicate. -/
theorem head_dropWhile_not (p : Nat → Bool) (l : List Nat) :
    ∀ a, (l.dropWhile p).head? = some a → p a = false := by
  induction l with
  | nil => simp [List.dropWhile]
  | cons x xs ih =>
    intro a h
    rw [List.dropWhile_cons] at h
    by_cases hp : p x
    · rw [if_pos hp] at h
      exact ih a h
    · rw [if_neg hp] at h
      simp only [List.head?_cons, Option.some.injEq] at h
      subst h
      simpa using hp

/-- C9: token resolution.  An absent `run/token` yields the empty token, and
the request built with that token carries no Authorization header; the token
(with its NUL terminator) always fits the caller's fixed 512-byte buffer;
input beyond the 511 readable bytes is truncated, not an error; and the trim
removes exactly a trailing run of LF/CR/space bytes — the kept prefix never
ends in one. -/
theorem read_token_resolution :
    read_token none = [] ∧
    (∀ port p, build_request port p (read_token none) =
      strBytes "GET " ++ cstr p ++ strBytes " HTTP/1.0" ++ crlf
      ++ strBytes "Host: localhost:" ++ intBytes port ++ crlf
      ++ strBytes "Accept: application/json" ++ crlf ++ crlf) ∧
    (∀ content, (read_token (some content)).length + 1 ≤ 512) ∧
    (∀ content, read_token (some content) = read_token (some (content.take 511))) ∧
    (∀ content, ∃ junk, content.take 511 = read_token (some content) ++ junk ∧
      ∀ c ∈ junk, isTrimByte c = true) ∧
    (∀ content c, (read_token (some content)).getLast? = some c → isTrimByte c = false) := by
  refine ⟨rfl, fun _ _ => rfl, ?_, ?_, ?_, ?_⟩
  · intro content
    have h1 : (read_token (some content)).length ≤ (content.take 511).length := by
      have h := (List.dropWhile_sublist (l := (content.take 511).reverse) isTrimByte).length_le
      rw [List.length_reverse] at h
      simpa [read_token, rstrip] using h
    have h2 : (content.take 511).length ≤ 511 := by simp
    omega
  · intro content
    simp [read_token, List.take_take]
  · intro content
    refine ⟨((content.take 511).reverse.takeWhile isTrimByte).reverse, ?_, ?_⟩
    · exact rstrip_decomp (content.take 511)
    · intro c hc
      rw [List.mem_reverse] at hc
      exact List.mem_takeWhile_imp hc
  · intro content c h
    have h2 : ((content.take 511).reverse.dropWhile isTrimByte).head? = some c := by
      have := List.getLast?_reverse ((content.take 511).reverse.dropWhile isTrimByte)
      rw [← this]
      exact h
    exact head_dropWhile_not isTrimByte (content.take 511).reverse c h2

/-- Witness for `read_token_resolution`: the file content `tok \n` trims to
`tok` (last byte `k`, not a trim byte) and fits the cap. -/
theorem read_token_resolution_witness :
    isTrimByte 107 = false ∧ (read_token (some (strBytes "tok \n"))).length + 1 ≤ 512 := by
  refine ⟨?_, read_token_resolution.2.2.1 (strBytes "tok \n")⟩
  exact read_token_resolution.2.2.2.2.2 (strBytes "tok \n") 107 (by decide)

/-- Request bytes as claim C4 orders them: Host, then Accept, then — only for
a non-empty token — the Authorization header, then the blank line. -/
def claimed_request (port : Int) (pathAndQuery token : List Nat) : List Nat :=
  strBytes "GET " ++ pathAndQuery ++ strBytes " HTTP/1.0" ++ crlf
  ++ strBytes "Host: localhost:" ++ intBytes port ++ crlf
  ++ strBytes "Accept: application/json" ++ crlf
  ++ (if token = [] then [] else strBytes "Authorization: Bearer " ++ token ++ crlf)
  ++ crlf

/-- Request bytes as amended: the Authorization header (emitted only when the
token starts with a non-NUL byte) sits between the Host and Accept headers. -/
def amended_request (port : Int) (pathAndQuery token : List Nat) : List Nat :=
  strBytes "GET " ++ cstr pathAndQuery ++ strBytes " HTTP/1.0" ++ crlf
  ++ strBytes "Host: localhost:" ++ intBytes port ++ crlf
  ++ (if tokenNonempty token then strBytes "Authorization: Bearer " ++ cstr token ++ crlf
      else [])
  ++ strBytes "Accept: application/json" ++ crlf ++ crlf

/-- C4 counterexample: with a non-empty token the request bytes are not the
claimed sequence — the code places Authorization before Accept, the claim
after.  With an empty token the two agree, isolating the header-order error. -/
theorem request_header_order_cex :
    build_request 7777 (strBytes "/x") (strBytes "t")
      ≠ claimed_request 7777 (strBytes "/x") (strBytes "t") ∧
    build_request 7777 (strBytes "/x") [] = claimed_request 7777 (strBytes "/x") [] := by
  decide

/-- C4 (amended): for every port, path and token the request is exactly
`GET <path> HTTP/1.0`, `Host`, then — only when the token is non-empty —
`Authorization: Bearer <token>`, then `Accept: application/json`, then the
blank line; no Authorization header is sent for an empty token. -/
theorem build_request_layout (port : Int) (p token : List Nat) :
    build_request port p token = amended_request port p token := by
  by_cases h : tokenNonempty token <;>
    simp [build_request, amended_request, h, List.append_assoc]

/-- Allowed bytes of a router-built URL: the encoder output alphabet plus the
literal structural bytes `/`, `?`, `=`, `&` of the path templates. -/
def urlSafeByte (b : Nat) : Bool :=
  encAlphabet b || b == 47 || b == 63 || b == 61 || b == 38

/-- Validation demanded by the claim for raw numeric arguments: at least one
byte, all decimal digits after an optional leading sign. -/
def pureTokenArg (s : List Nat) : Bool :=
  match s with
  | 43 :: r => !r.isEmpty && r.all isDigitByte
  | 45 :: r => !r.isEmpty && r.all isDigitByte
  | r => !r.isEmpty && r.all isDigitByte

theorem urlSafe_of_enc {b : Nat} (h : encAlphabet b = true) : urlSafeByte b = true := by
  simp [urlSafeByte, h]

/-- C2 counterexample: the `slice` dispatch inserts the raw `--max-bytes`
value into the request path verbatim even though it fails the digits-with-
optional-sign validation the claim asserts — no validation happens at all. -/
theorem slice_raw_args_unvalidated_cex :
    cmain ⟨fun d => d == [], fun _ => false, [], fun _ => none, fun _ => none, fun _ => none⟩
        ["cpljson", "slice", "--cache", "abc", "--max-bytes", "x&evil=1"]
      = .call 7777 (strBytes "/sidecar/cache/slice?cache=abc&max_bytes=x&evil=1") [] ∧
    pureTokenArg (strBytes "x&evil=1") = false := by
  decide

/-- C2 (amended): the encoded parameters (`session`, `endpoint`, `cache`,
`path`) always pass through `url_encode`, so the URLs built from them contain
only bytes of the encoder alphabet plus the literal `/ ? = &` of the
templates; the raw `--max-bytes` and `--offset` values are appended verbatim
with no validation whatsoever.  The final conjunct checks the specified
encoding example. -/
theorem query_encoding_discipline :
    (∀ s e, (∀ b ∈ s, b < 256) → (∀ b ∈ e, b < 256) →
      ∀ b ∈ list_url s e, urlSafeByte b = true) ∧
    (∀ c, (∀ b ∈ c, b < 256) → ∀ b ∈ meta_url c, urlSafeByte b = true) ∧
    (∀ c p, (∀ b ∈ c, b < 256) → (∀ b ∈ p, b < 256) →
      ∀ b ∈ slice_url c (some p) none none, urlSafeByte b = true) ∧
    (∀ c mb, slice_url c none (some mb) none
      = slice_url c none none none ++ (strBytes "&max_bytes=" ++ cstr mb)) ∧
    (∀ c off, slice_url c none none (some off)
      = slice_url c none none none ++ (strBytes "&offset=" ++ cstr off)) ∧
    list_url (strBytes "a b") (strBytes "x/y")
      = strBytes "/sidecar/cache/list?session=a%20b&endpoint=x%2Fy" := by
  have hlit1 : ∀ b ∈ strBytes "/sidecar/cache/list?session=", urlSafeByte b = true := by decide
  have hlit2 : ∀ b ∈ strBytes "&endpoint=", urlSafeByte b = true := by decide
  have hlit3 : ∀ b ∈ strBytes "/sidecar/cache/meta?cache=", urlSafeByte b = true := by decide
  have hlit4 : ∀ b ∈ strBytes "/sidecar/cache/slice?cache=", urlSafeByte b = true := by decide
  have hlit5 : ∀ b ∈ strBytes "&path=", urlSafeByte b = true := by decide
  refine ⟨?_, ?_, ?_, ?_, ?_, by decide⟩
  · intro s e hs he b hb
    simp only [list_url, List.mem_append] at hb
    rcases hb with ((hb | hb) | hb) | hb
    · exact hlit1 b hb
    · exact urlSafe_of_enc (url_encode_go_alphabet 1024 s 0 hs b hb)
    · exact hlit2 b hb
    · exact urlSafe_of_enc (url_encode_go_alphabet 1024 e 0 he b hb)
  · intro c hc b hb
    simp only [meta_url, List.mem_append] at hb
    rcases hb with hb | hb
    · exact hlit3 b hb
    · exact urlSafe_of_enc (url_encode_go_alphabet 1024 c 0 hc b hb)
  · intro c p hc hp b hb
    simp only [slice_url, List.append_nil, List.mem_append] at hb
    rcases hb with (hb | hb) | (hb | hb)
    · exact hlit4 b hb
    · exact urlSafe_of_enc (url_encode_go_alphabet 1024 c 0 hc b hb)
    · exact hlit5 b hb
    · exact urlSafe_of_enc (url_encode_go_alphabet 1024 p 0 hp b hb)
  · intro c mb
    simp [slice_url, List.append_assoc]
  · intro c off
    simp [slice_url, List.append_assoc]

/-- Witness for `query_encoding_discipline` at the specified example values
`session = "a b"`, `endpoint = "x/y"`. -/
theorem query_encoding_discipline_witness :
    (list_url (strBytes "a b") (strBytes "x/y")).all urlSafeByte = true :=
  List.all_eq_true.mpr
    (query_encoding_discipline.1 (strBytes "a b") (strBytes "x/y") (by decide) (by decide))

/-- C8: an argv with a missing subcommand, an unknown subcommand, or a missing
required argument makes `main` take an early error path regardless of the
environment: no socket is opened, the exit code is 1, nothing is written to
standard output, and a diagnostic is written to standard error. -/
theorem usage_errors_no_network (env : Env) (argv : List String)
    (h : requiredArgsMissing argv = true) :
    (cmain env argv).socketOpened = false ∧
    (cmain env argv).earlyExitCode = some 1 ∧
    (cmain env argv).earlyStdout = [] ∧
    (cmain env argv).stderrLinesOf ≠ [] := by
  match argv with
  | [] =>
    simp [cmain, MainOutcome.socketOpened, MainOutcome.earlyExitCode,
      MainOutcome.earlyStdout, MainOutcome.stderrLinesOf, usageLines]
  | [a] =>
    simp [cmain, MainOutcome.socketOpened, MainOutcome.earlyExitCode,
      MainOutcome.earlyStdout, MainOutcome.stderrLinesOf, usageLines]
  | a :: cmd :: rest =>
    cases hf : find_codeplane_dir ⟨env.marker, env.markerCfg⟩ env.cwd with
    | none =>
      simp [cmain, hf, MainOutcome.socketOpened, MainOutcome.earlyExitCode,
        MainOutcome.earlyStdout, MainOutcome.stderrLinesOf]
    | some cplDir =>
      by_cases hl : cmd = "list"
      · subst hl
        cases hs : find_arg (a :: "list" :: rest) "--session" with
        | none =>
          simp [cmain, hf, hs, MainOutcome.socketOpened, MainOutcome.earlyExitCode,
            MainOutcome.earlyStdout, MainOutcome.stderrLinesOf]
        | some s =>
          cases he : find_arg (a :: "list" :: rest) "--endpoint" with
          | none =>
            simp [cmain, hf, hs, he, MainOutcome.socketOpened, MainOutcome.earlyExitCode,
              MainOutcome.earlyStdout, MainOutcome.stderrLinesOf]
          | some e =>
            simp [requiredArgsMissing, hs, he] at h
      · by_cases hsl : cmd = "slice"
        · subst hsl
          cases hc : find_arg (a :: "slice" :: rest) "--cache" with
          | none =>
            simp [cmain, hf, hc, MainOutcome.socketOpened, MainOutcome.earlyExitCode,
              MainOutcome.earlyStdout, MainOutcome.stderrLinesOf]
          | some c =>
            simp [requiredArgsMissing, hc] at h
        · by_cases hm : cmd = "meta"
          · subst hm
            cases hc : find_arg (a :: "meta" :: rest) "--cache" with
            | none =>
              simp [cmain, hf, hc, MainOutcome.socketOpened, MainOutcome.earlyExitCode,
                MainOutcome.earlyStdout, MainOutcome.stderrLinesOf]
            | some c =>
              simp [requiredArgsMissing, hc] at h
          · simp [cmain, hf, hl, hsl, hm, MainOutcome.socketOpened,
              MainOutcome.earlyExitCode, MainOutcome.earlyStdout,
              MainOutcome.stderrLinesOf]

/-- Witness for `usage_errors_no_network`: `cpljson meta` without `--cache`
in an environment with no configuration root at all. -/
theorem usage_errors_no_network_witness :
    (cmain ⟨fun _ => false, fun _ => false, [], fun _ => none, fun _ => none, fun _ => none⟩
        ["cpljson", "meta"]).socketOpened = false ∧
    (cmain ⟨fun _ => false, fun _ => false, [], fun _ => none, fun _ => none, fun _ => none⟩
        ["cpljson", "meta"]).earlyExitCode = some 1 ∧
    (cmain ⟨fun _ => false, fun _ => false, [], fun _ => none, fun _ => none, fun _ => none⟩
        ["cpljson", "meta"]).earlyStdout = [] ∧
    (cmain ⟨fun _ => false, fun _ => false, [], fun _ => none, fun _ => none, fun _ => none⟩
        ["cpljson", "meta"]).stderrLinesOf ≠ [] :=
  usage_errors_no_network
    ⟨fun _ => false, fun _ => false, [], fun _ => none, fun _ => none, fun _ => none⟩
    ["cpljson", "meta"] (by decide)

end Cpljson
